import Mathlib

/-!
Verification of the mediatall-zapi-backend ingestion pipeline.

The repository is a small Express backend that ingests Z-API WhatsApp
webhook events, normalizes several payload envelope shapes into candidate
message records, filters non-content events, and maintains two in-memory
stores: a conversation-summary map and a per-conversation message log.

This file gives a shallow embedding of the relevant JavaScript functions:
JSON values become an inductive type, JavaScript truthiness and the
field-probing idioms become explicit helper functions, and the handlers
become pure functions over an explicit store.  JavaScript numbers are
modeled as integers: every numeric value the verified claims touch
(timestamps in milliseconds, cursors, page sizes) is integral, and the
code's truthiness guards keep NaN out of the modeled paths.
-/

/-- A plain JSON value, as delivered in a webhook body.  Lists of fields
keep insertion order, matching JavaScript object key order. -/
inductive JsonVal where
  | jnull
  | jbool (b : Bool)
  | jnum (n : Int)
  | jstr (s : String)
  | jarr (elems : List JsonVal)
  | jobj (fields : List (String × JsonVal))
deriving Repr

namespace JsonVal

mutual

/-- Structural equality of JSON values.  It models JavaScript strict
equality at the points the code uses it (message ids and map keys), which
agrees with structural equality on primitives; the code never compares
two distinct object references for equality on a path a claim touches. -/
def beqJ : JsonVal → JsonVal → Bool
  | .jnull, .jnull => true
  | .jbool a, .jbool b => a == b
  | .jnum a, .jnum b => a == b
  | .jstr a, .jstr b => a == b
  | .jarr xs, .jarr ys => beqL xs ys
  | .jobj fs, .jobj gs => beqF fs gs
  | _, _ => false

/-- Elementwise equality of JSON arrays. -/
def beqL : List JsonVal → List JsonVal → Bool
  | [], [] => true
  | x :: xs, y :: ys => beqJ x y && beqL xs ys
  | _, _ => false

/-- Fieldwise equality of JSON objects. -/
def beqF : List (String × JsonVal) → List (String × JsonVal) → Bool
  | [], [] => true
  | (k, v) :: fs, (l, w) :: gs => k == l && beqJ v w && beqF fs gs
  | _, _ => false

end

instance : BEq JsonVal := ⟨beqJ⟩

theorem beqJ_def (a b : JsonVal) : (a == b) = beqJ a b := rfl

mutual

theorem beqJ_refl : ∀ v : JsonVal, beqJ v v = true
  | .jnull => rfl
  | .jbool b => by simp [beqJ]
  | .jnum n => by simp [beqJ]
  | .jstr s => by simp [beqJ]
  | .jarr xs => by simpa [beqJ] using beqL_refl xs
  | .jobj fs => by simpa [beqJ] using beqF_refl fs

theorem beqL_refl : ∀ xs : List JsonVal, beqL xs xs = true
  | [] => rfl
  | x :: xs => by simp [beqL, beqJ_refl x, beqL_refl xs]

theorem beqF_refl : ∀ fs : List (String × JsonVal), beqF fs fs = true
  | [] => rfl
  | (k, v) :: fs => by simp [beqF, beqJ_refl v, beqF_refl fs]

end

/-- JavaScript truthiness of a defined value: null, false, 0 and the
empty string are falsy; every object and array is truthy. -/
def truthy : JsonVal → Bool
  | .jnull => false
  | .jbool b => b
  | .jnum n => n != 0
  | .jstr s => s != ""
  | .jarr _ => true
  | .jobj _ => true

/-- Property access `x.k`: a field of an object, `none` (undefined) for a
missing field or for any non-object receiver. -/
def getField : JsonVal → String → Option JsonVal
  | .jobj fs, k => (fs.find? (fun p => p.1 == k)).map (·.2)
  | _, _ => none

/-- Truthiness of a possibly-undefined value (undefined is falsy). -/
def truthyO : Option JsonVal → Bool
  | some v => truthy v
  | none => false

/-- A possibly-undefined value defaulted to null; `getField (fieldD x k) k2`
models the optional chain `x.k?.k2`. -/
def fieldD (x : JsonVal) (k : String) : JsonVal :=
  (getField x k).getD .jnull

/-- Test `o === s` for a string literal s (strict equality against a string). -/
def isStrV (o : Option JsonVal) (s : String) : Bool :=
  match o with
  | some (.jstr t) => t == s
  | _ => false

end JsonVal

namespace JsonVal

/-- The JavaScript `a || b` fallback idiom over a possibly-undefined left
operand: the left value when truthy, otherwise the right value. -/
def jsOrV (a : Option JsonVal) (b : JsonVal) : JsonVal :=
  match a with
  | some v => if truthy v then v else b
  | none => b

/-- The JavaScript nullish-coalescing idiom `a ?? b`: the left value
unless it is null or undefined. -/
def jsQQ (a : Option JsonVal) (b : JsonVal) : JsonVal :=
  match a with
  | some .jnull => b
  | some v => v
  | none => b

/-- Whether a possibly-undefined value is nullish (null or undefined). -/
def nullishO : Option JsonVal → Bool
  | none => true
  | some .jnull => true
  | some _ => false

/-- The numeric `a || d` idiom: a number defaulted when absent or zero
(zero is falsy in JavaScript). -/
def numOr (a : Option Int) (d : Int) : Int :=
  match a with
  | some t => if t = 0 then d else t
  | none => d

/-- String conversion as performed by template literals and String(x). -/
def jsToString : JsonVal → String
  | .jnull => "null"
  | .jbool b => if b then "true" else "false"
  | .jnum n => toString n
  | .jstr s => s
  | .jarr xs => String.intercalate "," (xs.map fun v => jsToStrShallow v)
  | .jobj _ => "[object Object]"
where
  /-- One-level element rendering for Array.prototype.toString; nested
  structure below the first level never reaches a claim, so elements are
  rendered by tag only. -/
  jsToStrShallow : JsonVal → String
    | .jnull => ""
    | .jbool b => if b then "true" else "false"
    | .jnum n => toString n
    | .jstr s => s
    | .jarr _ => ""
    | .jobj _ => "[object Object]"

end JsonVal

open JsonVal

/-- A stored message record, as built by the webhook loop of the main
revision: an id, the outbound flag, the canonical kind, the text, the
media reference (null when absent) and a millisecond timestamp.  Ids,
kinds and texts stay JSON values because the source copies whatever the
payload supplied. -/
structure Msg where
  id : JsonVal
  fromMe : Bool
  mtype : JsonVal
  text : JsonVal
  mediaUrl : JsonVal
  ts : Int
deriving Repr

/-- A stored conversation summary: Chats maps a chat id to this record.
After any upsert every field is defined; avatarUrl and preview are null
when never supplied. -/
structure ChatRec where
  chatId : JsonVal
  name : JsonVal
  phone : JsonVal
  lastTs : Int
  avatarUrl : JsonVal
  preview : JsonVal
deriving Repr

/-- Association-list lookup, modeling Map.prototype.get keyed by chat id. -/
def alistGet {α : Type} (xs : List (JsonVal × α)) (k : JsonVal) : Option α :=
  (xs.find? (fun p => beqJ p.1 k)).map (·.2)

/-- Association-list update, modeling Map.prototype.set: replaces the
entry in place, or appends a fresh entry at the end (Map insertion order). -/
def alistSet {α : Type} : List (JsonVal × α) → JsonVal → α → List (JsonVal × α)
  | [], k, v => [(k, v)]
  | (k1, v1) :: rest, k, v =>
      if beqJ k1 k then (k, v) :: rest else (k1, v1) :: alistSet rest k v

/-- upsertChat (src/unnamed/part_001 lines 22-32; identically in
src/server.js lines 110-120 and src/unnamed/part_000): fetch-or-create
the summary for chatId, then merge.  A truthy incoming name/phone
replaces the stored one, otherwise the stored value (or its computed
default) is kept; lastTs becomes the maximum of the stored and incoming
timestamps; avatarUrl and preview use nullish coalescing against the
stored values.  `prevOpt = none` models a chat id with no stored entry,
whose fresh record has every field but chatId undefined. -/
def upsertChat (prevOpt : Option ChatRec) (chatId : JsonVal)
    (name phone : Option JsonVal) (ts : Option Int)
    (avatarUrl preview : Option JsonVal) : ChatRec :=
  { chatId := chatId
    name := jsOrV name (jsOrV (prevOpt.map ChatRec.name) (jsOrV phone chatId))
    phone := jsOrV phone (jsOrV (prevOpt.map ChatRec.phone) (.jstr ""))
    lastTs := max (numOr (prevOpt.map ChatRec.lastTs) 0) (numOr ts 0)
    avatarUrl := jsQQ avatarUrl (jsQQ (prevOpt.map ChatRec.avatarUrl) .jnull)
    preview := jsQQ preview (jsQQ (prevOpt.map ChatRec.preview) .jnull) }

/-- pushMessage (src/unnamed/part_001 lines 34-39; identically in
src/server.js lines 122-127 and src/unnamed/part_000): ensure the
conversation has a log, then append the record at the front unless some
stored record already bears the same id. -/
def pushMessage (store : List (JsonVal × List Msg)) (chatId : JsonVal)
    (msg : Msg) : List (JsonVal × List Msg) :=
  let st1 := if (alistGet store chatId).isSome then store else alistSet store chatId []
  let arr := (alistGet st1 chatId).getD []
  if arr.any (fun x => beqJ x.id msg.id) then st1
  else alistSet st1 chatId (msg :: arr)

theorem alistGet_set_self {α : Type} (xs : List (JsonVal × α)) (k : JsonVal) (v : α) :
    alistGet (alistSet xs k v) k = some v := by
  induction xs with
  | nil => simp [alistGet, alistSet, List.find?, beqJ_refl]
  | cons hd tl ih =>
      obtain ⟨k1, v1⟩ := hd
      by_cases h : beqJ k1 k = true
      · simp [alistGet, alistSet, h, List.find?, beqJ_refl]
      · simp only [alistSet, h, if_false]
        simpa [alistGet, List.find?, h] using ih

/-- The stored log of a conversation: the Messages map entry, or the
empty log when the conversation has no entry. -/
def msgLog (store : List (JsonVal × List Msg)) (chatId : JsonVal) : List Msg :=
  (alistGet store chatId).getD []

theorem pushMessage_log (store : List (JsonVal × List Msg)) (chatId : JsonVal) (m : Msg) :
    alistGet (pushMessage store chatId m) chatId
      = some (if (msgLog store chatId).any (fun x => beqJ x.id m.id) then msgLog store chatId
              else m :: msgLog store chatId) := by
  cases hg : alistGet store chatId with
  | none => simp [pushMessage, msgLog, hg, alistGet_set_self]
  | some a =>
      by_cases hd : a.any (fun x => beqJ x.id m.id) = true
      · simp [pushMessage, msgLog, hg, hd]
      · simp [pushMessage, msgLog, hg, hd, alistGet_set_self]

theorem jsOrV_of_falsy (a : Option JsonVal) (b : JsonVal) (h : truthyO a = false) :
    jsOrV a b = b := by
  cases a <;> simp_all [jsOrV, truthyO]

theorem jsOrV_of_truthy (v : JsonVal) (b : JsonVal) (h : truthy v = true) :
    jsOrV (some v) b = v := by
  simp [jsOrV, h]

theorem jsQQ_some_self (v : JsonVal) : jsQQ (some v) .jnull = v := by
  cases v <;> simp [jsQQ]

theorem jsQQ_of_nullish (a : Option JsonVal) (b : JsonVal) (h : nullishO a = true) :
    jsQQ a b = b := by
  cases a with
  | none => simp [jsQQ]
  | some v => cases v <;> simp_all [jsQQ, nullishO]

/-- Claim C1: pushing two message records that bear the same id into a
conversation's log makes the second call a no-op — the store after both
calls equals the store after the first, the log length is unchanged, and
(when the id was not present before) the log holds exactly one record
with that id. -/
theorem pushMessage_noop (S : List (JsonVal × List Msg)) (chatId : JsonVal) (m : Msg)
    (arrA : List Msg) (hg : alistGet S chatId = some arrA)
    (hd : arrA.any (fun x => beqJ x.id m.id) = true) :
    pushMessage S chatId m = S := by
  simp [pushMessage, hg, hd]

theorem pushMessage_idempotent (store : List (JsonVal × List Msg)) (chatId : JsonVal)
    (m1 m2 : Msg) (h : m1.id = m2.id) :
    pushMessage (pushMessage store chatId m1) chatId m2 = pushMessage store chatId m1 ∧
    (msgLog (pushMessage (pushMessage store chatId m1) chatId m2) chatId).length
      = (msgLog (pushMessage store chatId m1) chatId).length ∧
    ((∀ x ∈ msgLog store chatId, beqJ x.id m1.id = false) →
      ((msgLog (pushMessage (pushMessage store chatId m1) chatId m2) chatId).filter
        (fun x => beqJ x.id m1.id)).length = 1) := by
  have hlog1 := pushMessage_log store chatId m1
  have hany : (if (msgLog store chatId).any (fun x => beqJ x.id m1.id) = true
        then msgLog store chatId else m1 :: msgLog store chatId).any
      (fun x => beqJ x.id m1.id) = true := by
    by_cases hd : (msgLog store chatId).any (fun x => beqJ x.id m1.id) = true
    · simp [hd]
    · simp [hd, beqJ_refl]
  have hmain : pushMessage (pushMessage store chatId m1) chatId m2
      = pushMessage store chatId m1 :=
    pushMessage_noop _ chatId m2 _ hlog1 (h ▸ hany)
  refine ⟨hmain, by rw [hmain], ?_⟩
  intro h2
  have hdup : (msgLog store chatId).any (fun x => beqJ x.id m1.id) = false := by
    rw [List.any_eq_false]
    intro x hx
    simp [h2 x hx]
  have hlogS1 : msgLog (pushMessage store chatId m1) chatId = m1 :: msgLog store chatId := by
    have hdef : msgLog (pushMessage store chatId m1) chatId
        = (alistGet (pushMessage store chatId m1) chatId).getD [] := rfl
    rw [hdef, hlog1, hdup]
    simp
  rw [hmain, hlogS1]
  have hfil : (msgLog store chatId).filter (fun x => beqJ x.id m1.id) = [] := by
    rw [List.filter_eq_nil_iff]
    intro x hx
    simp [h2 x hx]
  simp [List.filter, beqJ_refl, hfil]

def msgW : Msg := ⟨.jstr "id1", false, .jstr "chat", .jstr "hi", .jnull, 5⟩

def msgW2 : Msg := ⟨.jstr "id1", true, .jstr "chat", .jstr "other", .jnull, 9⟩

theorem pushMessage_idempotent_witness :
    pushMessage (pushMessage [] (.jstr "c") msgW) (.jstr "c") msgW2
        = pushMessage [] (.jstr "c") msgW ∧
    ((msgLog (pushMessage (pushMessage [] (.jstr "c") msgW) (.jstr "c") msgW2)
        (.jstr "c")).filter (fun x => beqJ x.id msgW.id)).length = 1 := by
  have h := pushMessage_idempotent [] (.jstr "c") msgW msgW2 rfl
  exact ⟨h.1, h.2.2 (by simp [msgLog, alistGet])⟩

/-- Claim C2: an upsert over an existing summary never moves lastTs down,
and an absent incoming field (falsy for name and phone, nullish for
avatarUrl and preview) retains the stored value, so a previously
non-absent field is never erased. -/
theorem upsertChat_merge_invariants (prev : ChatRec) (chatId : JsonVal)
    (name phone : Option JsonVal) (ts : Option Int) (avatarUrl preview : Option JsonVal) :
    prev.lastTs ≤ (upsertChat (some prev) chatId name phone ts avatarUrl preview).lastTs ∧
    (truthyO name = false → truthy prev.name = true →
      (upsertChat (some prev) chatId name phone ts avatarUrl preview).name = prev.name) ∧
    (truthyO phone = false → truthy prev.phone = true →
      (upsertChat (some prev) chatId name phone ts avatarUrl preview).phone = prev.phone) ∧
    (nullishO avatarUrl = true →
      (upsertChat (some prev) chatId name phone ts avatarUrl preview).avatarUrl
        = prev.avatarUrl) ∧
    (nullishO preview = true →
      (upsertChat (some prev) chatId name phone ts avatarUrl preview).preview
        = prev.preview) := by
  refine ⟨?_, ?_, ?_, ?_, ?_⟩
  · have hn : numOr (some prev.lastTs) 0 = prev.lastTs := by
      by_cases h0 : prev.lastTs = 0 <;> simp [numOr, h0]
    calc prev.lastTs = numOr (some prev.lastTs) 0 := hn.symm
      _ ≤ max (numOr (some prev.lastTs) 0) (numOr ts 0) := le_max_left _ _
      _ = (upsertChat (some prev) chatId name phone ts avatarUrl preview).lastTs := rfl
  · intro hN hP
    show jsOrV name (jsOrV (some prev.name) (jsOrV phone chatId)) = prev.name
    rw [jsOrV_of_falsy _ _ hN, jsOrV_of_truthy _ _ hP]
  · intro hN hP
    show jsOrV phone (jsOrV (some prev.phone) (.jstr "")) = prev.phone
    rw [jsOrV_of_falsy _ _ hN, jsOrV_of_truthy _ _ hP]
  · intro hN
    show jsQQ avatarUrl (jsQQ (some prev.avatarUrl) .jnull) = prev.avatarUrl
    rw [jsQQ_of_nullish _ _ hN, jsQQ_some_self]
  · intro hN
    show jsQQ preview (jsQQ (some prev.preview) .jnull) = prev.preview
    rw [jsQQ_of_nullish _ _ hN, jsQQ_some_self]

def chatW : ChatRec :=
  ⟨.jstr "55@c.us", .jstr "Alice", .jstr "55", 100, .jstr "http://pic", .jobj []⟩

theorem upsertChat_merge_invariants_witness :
    chatW.lastTs ≤ (upsertChat (some chatW) (.jstr "55@c.us") none none (some 50)
        none none).lastTs ∧
    (upsertChat (some chatW) (.jstr "55@c.us") none none (some 50) none none).name
        = chatW.name ∧
    (upsertChat (some chatW) (.jstr "55@c.us") none none (some 50) none none).avatarUrl
        = chatW.avatarUrl := by
  have h := upsertChat_merge_invariants chatW (.jstr "55@c.us") none none (some 50) none none
  exact ⟨h.1, h.2.1 rfl rfl, h.2.2.2.1 rfl⟩

namespace JsonVal

/-- The JavaScript typeof-object test (typeof x === "object"): true for
objects, arrays and null.  In the normalizer it always runs behind a
truthiness guard, so the null case is never the deciding one. -/
def isObjLike : JsonVal → Bool
  | .jobj _ => true
  | .jarr _ => true
  | .jnull => true
  | _ => false

/-- Envelope shape 1 guard (src/unnamed/part_001 line 58):
b.type === "message" && b.message. -/
def shape1 (b : JsonVal) : Bool :=
  isStrV (getField b "type") "message" && truthyO (getField b "message")

/-- Envelope shape 2 guard (line 59): Array.isArray(b.messages). -/
def shape2 (b : JsonVal) : Bool :=
  match getField b "messages" with
  | some (.jarr _) => true
  | _ => false

/-- Envelope shape 3 guard (line 60): b.event === "message" && b.data. -/
def shape3 (b : JsonVal) : Bool :=
  isStrV (getField b "event") "message" && truthyO (getField b "data")

/-- Envelope shape 4 guard (line 61): b.chatId together with one of the
content fields body, text, caption, imageUrl, documentUrl. -/
def shape4 (b : JsonVal) : Bool :=
  truthyO (getField b "chatId") &&
    (truthyO (getField b "body") || truthyO (getField b "text") ||
      truthyO (getField b "caption") || truthyO (getField b "imageUrl") ||
      truthyO (getField b "documentUrl"))

/-- Envelope shape 5 guard (line 62): b.msg && (b.msg.chatId || b.msg.from). -/
def shape5 (b : JsonVal) : Bool :=
  truthyO (getField b "msg") &&
    (truthyO (getField (fieldD b "msg") "chatId") ||
      truthyO (getField (fieldD b "msg") "from"))

/-- Envelope shape 6 guard (lines 65-67): b.type === "ReceivedCallback",
or a truthy b.phone, or a truthy object-typed b.text. -/
def shape6 (b : JsonVal) : Bool :=
  isStrV (getField b "type") "ReceivedCallback" || truthyO (getField b "phone") ||
    (truthyO (getField b "text") && isObjLike (fieldD b "text"))

/-- Identity predicate of the recursive scan (line 74):
x.chatId || x.from || x.jid || x.remoteJid || x.phone. -/
def hasId (x : JsonVal) : Bool :=
  truthyO (getField x "chatId") || truthyO (getField x "from") ||
    truthyO (getField x "jid") || truthyO (getField x "remoteJid") ||
    truthyO (getField x "phone")

/-- Content predicate of the recursive scan (lines 75-81): a truthy body,
a string-typed text, a truthy object-typed text with message or caption,
a truthy caption, or a truthy image or document URL. -/
def hasContent (x : JsonVal) : Bool :=
  truthyO (getField x "body") ||
    (match getField x "text" with
      | some (.jstr _) => true
      | _ => false) ||
    (truthyO (getField x "text") && isObjLike (fieldD x "text") &&
      (truthyO (getField (fieldD x "text") "message") ||
        truthyO (getField (fieldD x "text") "caption"))) ||
    truthyO (getField x "caption") || truthyO (getField x "imageUrl") ||
    truthyO (getField x "documentUrl")

mutual

/-- The recursive fallback scan of the normalizer (src/unnamed/part_001
lines 70-85): depth-first over the whole body, collecting in document
order every nested object that satisfies both the identity and the
content predicate; a parent is collected before its children.  Non-object
non-array values are leaves. -/
def walk : JsonVal → List JsonVal
  | .jobj fs =>
      (if hasId (.jobj fs) && hasContent (.jobj fs) then [JsonVal.jobj fs] else [])
        ++ walkFields fs
  | .jarr xs =>
      (if hasId (.jarr xs) && hasContent (.jarr xs) then [JsonVal.jarr xs] else [])
        ++ walkElems xs
  | _ => []

/-- Scan of an object's field values, in key insertion order. -/
def walkFields : List (String × JsonVal) → List JsonVal
  | [] => []
  | f :: rest => walk f.2 ++ walkFields rest

/-- Scan of an array's elements, in index order. -/
def walkElems : List JsonVal → List JsonVal
  | [] => []
  | v :: rest => walk v ++ walkElems rest

end

/-- An optional value that must be an array under an established guard:
the array's elements, or the empty list. -/
def arrD : Option JsonVal → List JsonVal
  | some (.jarr xs) => xs
  | _ => []

/-- normalizeIncoming (src/unnamed/part_001 lines 51-86; identically in
src/unnamed/part_000 lines 55-90; the earlier revision in src/server.js
lines 2-25 implements only the first five shapes and no scan).  String
bodies are opportunistically JSON-parsed by the source before the shape
dispatch; this embedding takes the body after that step (an unparsable
string keeps flowing as a string, on which every field probe is undefined
and the scan yields [], matching the source). -/
def normalizeIncoming (b : JsonVal) : List JsonVal :=
  if truthy b then
    if shape1 b then [fieldD b "message"]
    else if shape2 b then arrD (getField b "messages")
    else if shape3 b then
      match fieldD b "data" with
      | .jarr xs => xs
      | d => [d]
    else if shape4 b then [b]
    else if shape5 b then [fieldD b "msg"]
    else if shape6 b then [b]
    else walk b
  else []

end JsonVal

/-- Claim C3: for a truthy webhook body, the six recognized envelope
shapes are tried in the fixed order, the first matching shape wins and
short-circuits the rest, and each shape yields exactly the prescribed
candidate sequence: [message], messages as-is, [data] or data, [body],
[msg], [body]. -/
theorem normalizeIncoming_shape_dispatch (b : JsonVal) (hb : truthy b = true) :
    (∀ m, getField b "type" = some (.jstr "message") → getField b "message" = some m →
      truthy m = true → normalizeIncoming b = [m]) ∧
    (∀ xs, shape1 b = false → getField b "messages" = some (.jarr xs) →
      normalizeIncoming b = xs) ∧
    (∀ ds, shape1 b = false → shape2 b = false →
      getField b "event" = some (.jstr "message") → getField b "data" = some (.jarr ds) →
      normalizeIncoming b = ds) ∧
    (∀ d, shape1 b = false → shape2 b = false →
      getField b "event" = some (.jstr "message") → getField b "data" = some d →
      (∀ ds, d ≠ .jarr ds) → truthy d = true → normalizeIncoming b = [d]) ∧
    (shape1 b = false → shape2 b = false → shape3 b = false →
      truthyO (getField b "chatId") = true →
      (truthyO (getField b "body") || truthyO (getField b "text") ||
        truthyO (getField b "caption") || truthyO (getField b "imageUrl") ||
        truthyO (getField b "documentUrl")) = true →
      normalizeIncoming b = [b]) ∧
    (∀ mv, shape1 b = false → shape2 b = false → shape3 b = false → shape4 b = false →
      getField b "msg" = some mv → truthy mv = true →
      (truthyO (getField mv "chatId") || truthyO (getField mv "from")) = true →
      normalizeIncoming b = [mv]) ∧
    (shape1 b = false → shape2 b = false → shape3 b = false → shape4 b = false →
      shape5 b = false →
      (isStrV (getField b "type") "ReceivedCallback" || truthyO (getField b "phone") ||
        (truthyO (getField b "text") && isObjLike (fieldD b "text"))) = true →
      normalizeIncoming b = [b]) := by
  refine ⟨?_, ?_, ?_, ?_, ?_, ?_, ?_⟩
  · intro m hT hM hTr
    have hs1 : shape1 b = true := by simp [shape1, isStrV, hT, hM, truthyO, hTr]
    simp [normalizeIncoming, hb, hs1, fieldD, hM]
  · intro xs h1 hM
    have hs2 : shape2 b = true := by simp [shape2, hM]
    simp [normalizeIncoming, hb, h1, hs2, arrD, hM]
  · intro ds h1 h2 hE hD
    have hs3 : shape3 b = true := by simp [shape3, isStrV, hE, truthyO, hD, truthy]
    simp [normalizeIncoming, hb, h1, h2, hs3, fieldD, hD]
  · intro d h1 h2 hE hD hNA hTr
    have hs3 : shape3 b = true := by simp [shape3, isStrV, hE, truthyO, hD, hTr]
    cases d with
    | jarr ds => exact absurd rfl (hNA ds)
    | jnull => simp [normalizeIncoming, hb, h1, h2, hs3, fieldD, hD]
    | jbool v => simp [normalizeIncoming, hb, h1, h2, hs3, fieldD, hD]
    | jnum v => simp [normalizeIncoming, hb, h1, h2, hs3, fieldD, hD]
    | jstr v => simp [normalizeIncoming, hb, h1, h2, hs3, fieldD, hD]
    | jobj v => simp [normalizeIncoming, hb, h1, h2, hs3, fieldD, hD]
  · intro h1 h2 h3 hCid hCont
    have hs4 : shape4 b = true := by simp [shape4, hCid, hCont]
    simp [normalizeIncoming, hb, h1, h2, h3, hs4]
  · intro mv h1 h2 h3 h4 hM hTr hIdent
    have hs5 : shape5 b = true := by
      simp only [shape5, fieldD, hM, Option.getD_some, hIdent, Bool.and_true]
      simp [truthyO, hTr]
    simp [normalizeIncoming, hb, h1, h2, h3, h4, hs5, fieldD, hM]
  · intro h1 h2 h3 h4 h5 hS6
    have hs6 : shape6 b = true := by simpa only [shape6] using hS6
    simp [normalizeIncoming, hb, h1, h2, h3, h4, h5, hs6]

/-- A shape-1 webhook body used to instantiate the dispatch theorem. -/
def normBody1 : JsonVal :=
  .jobj [("type", .jstr "message"),
         ("message", .jobj [("chatId", .jstr "55@c.us"), ("body", .jstr "hi")])]

theorem normalizeIncoming_shape_dispatch_witness :
    normalizeIncoming normBody1
      = [.jobj [("chatId", .jstr "55@c.us"), ("body", .jstr "hi")]] :=
  (normalizeIncoming_shape_dispatch normBody1 rfl).1
    (.jobj [("chatId", .jstr "55@c.us"), ("body", .jstr "hi")]) rfl rfl rfl

/-- Character-list lowercasing, modeling String.prototype.toLowerCase
on the ASCII range the classifier's patterns live in. -/
def toLowerStr (s : String) : String :=
  String.mk (s.data.map Char.toLower)

/-- Character-list trimming of leading and trailing whitespace, modeling
String.prototype.trim. -/
def trimChars (s : String) : String :=
  String.mk ((s.data.dropWhile Char.isWhitespace).reverse.dropWhile
    Char.isWhitespace).reverse

/-- Whether the character list begins with the needle. -/
def listStartsWith : List Char → List Char → Bool
  | _, [] => true
  | [], _ :: _ => false
  | c :: cs, d :: ds => c == d && listStartsWith cs ds

/-- Whether the needle occurs contiguously anywhere in the haystack. -/
def listHasInfix : List Char → List Char → Bool
  | [], needle => needle.isEmpty
  | c :: rest, needle => listStartsWith (c :: rest) needle || listHasInfix rest needle

/-- Case-insensitive substring test, modeling a case-insensitive regex
literal such as /Ack/i applied with RegExp.prototype.test. -/
def containsCI (hay needle : String) : Bool :=
  listHasInfix (toLowerStr hay).data (toLowerStr needle).data

/-- The noise filter of the webhook loop (src/unnamed/part_001 lines
110-117): a declared type matching any of the six case-insensitive
patterns StatusCallback, Presence, Typing, Ack, Read, Delivered is
skipped as a non-content event. -/
def isNoise (rawType : String) : Bool :=
  containsCI rawType "StatusCallback" || containsCI rawType "Presence" ||
    containsCI rawType "Typing" || containsCI rawType "Ack" ||
    containsCI rawType "Read" || containsCI rawType "Delivered"

/-- The declared raw type of a candidate (line 107):
String(m.type || m.messageType || "").trim(). -/
def rawTypeOf (m : JsonVal) : String :=
  trimChars (jsToString (jsOrV (getField m "type")
    (jsOrV (getField m "messageType") (.jstr ""))))

/-- String(x).replace of every non-digit with nothing. -/
def digitsOnly (s : String) : String :=
  String.mk (s.data.filter Char.isDigit)

/-- Chat id derivation (lines 122-125): m.chatId, m.from, m.jid,
m.remoteJid, else the digits of m.phone suffixed with the provider
domain; a falsy result makes the loop skip the candidate (none). -/
def chatIdOf (m : JsonVal) : Option JsonVal :=
  let phonePart : JsonVal :=
    match getField m "phone" with
    | some p => if truthy p then .jstr (digitsOnly (jsToString p) ++ "@c.us") else .jnull
    | none => .jnull
  let v := jsOrV (getField m "chatId") (jsOrV (getField m "from")
    (jsOrV (getField m "jid") (jsOrV (getField m "remoteJid") phonePart)))
  if truthy v then some v else none

/-- The part of a string before the first "@" (chatId.split("@")[0]). -/
def beforeAtSign (s : String) : String :=
  String.mk (s.data.takeWhile (fun c => c != '@'))

/-- Phone derivation (line 127): the chat id's local part when the chat
id is a string, else the raw phone field, else the empty string. -/
def phoneOf (m : JsonVal) (chatId : JsonVal) : JsonVal :=
  let p1 : JsonVal :=
    match chatId with
    | .jstr s => .jstr (beforeAtSign s)
    | _ => .jstr ""
  jsOrV (some p1) (jsOrV (getField m "phone") (.jstr ""))

/-- Name derivation (line 130): m.senderName || m.chatName || m.name || phone. -/
def nameOf (m : JsonVal) (phone : JsonVal) : JsonVal :=
  jsOrV (getField m "senderName") (jsOrV (getField m "chatName")
    (jsOrV (getField m "name") phone))

/-- Avatar derivation (line 131):
m.senderPhoto || m.photo || m.profilePicUrl || m.avatarUrl || null. -/
def avatarOf (m : JsonVal) : JsonVal :=
  jsOrV (getField m "senderPhoto") (jsOrV (getField m "photo")
    (jsOrV (getField m "profilePicUrl") (jsOrV (getField m "avatarUrl") .jnull)))

/-- The numeric value of an all-digit character list, none otherwise. -/
def natOfDigits (cs : List Char) : Option Nat :=
  match cs with
  | [] => none
  | _ =>
      if cs.all Char.isDigit then
        some (cs.foldl (fun acc c => acc * 10 + (c.toNat - 48)) 0)
      else none

/-- Number(s) for a string over the integral fragment the claims touch:
whitespace-only strings coerce to 0, optionally signed digit strings to
their value, everything else to NaN (none). -/
def jsParseNum (s : String) : Option Int :=
  match (trimChars s).data with
  | [] => some 0
  | '-' :: rest => (natOfDigits rest).map (fun n => -(n : Int))
  | '+' :: rest => (natOfDigits rest).map (fun n => (n : Int))
  | cs => (natOfDigits cs).map (fun n => (n : Int))

/-- Numeric coercion Number(x) over the integral fragment the claims
touch; none models NaN.  A one-element array coerces through its
element, longer arrays and plain objects coerce to NaN. -/
def jsNumber : JsonVal → Option Int
  | .jnull => some 0
  | .jbool b => some (if b then 1 else 0)
  | .jnum n => some n
  | .jstr s => jsParseNum s
  | .jarr [] => some 0
  | .jarr [v] => jsNumber v
  | .jarr _ => none
  | .jobj _ => none

/-- The idiom (field && Number(field) * mul): some value only when the
field is present, truthy, numeric, and the product is itself truthy. -/
def jsTruthyNum (o : Option JsonVal) (mul : Int) : Option Int :=
  match o with
  | some v =>
      if truthy v then
        match jsNumber v with
        | some n => if n * mul = 0 then none else some (n * mul)
        | none => none
      else none
  | none => none

/-- Timestamp derivation (lines 134-137): an already-millisecond moment
field, else a seconds timestamp scaled by 1000, else the wall clock. -/
def tsOf (now : Int) (m : JsonVal) : Int :=
  match jsTruthyNum (getField m "moment") 1 with
  | some n => n
  | none =>
      match jsTruthyNum (getField m "timestamp") 1000 with
      | some n => n
      | none => now

/-- Canonical kind derivation of the main webhook revision (lines
140-142): a raw type of exactly "ReceivedCallback" becomes "chat",
otherwise m.messageType, else the raw type, else "image" when an image
URL is present, else "chat". -/
def canonTypeP1 (rawType : String) (messageType : Option JsonVal)
    (imageUrl : Option JsonVal) : JsonVal :=
  if rawType == "ReceivedCallback" then .jstr "chat"
  else jsOrV messageType (jsOrV (some (.jstr rawType))
    (if truthyO imageUrl then .jstr "image" else .jstr "chat"))

/-- Text derivation (lines 144-147): m.body, else a string m.text, else
the message or caption of an object m.text, else m.caption, else "". -/
def textOf (m : JsonVal) : JsonVal :=
  let tpart : JsonVal :=
    match getField m "text" with
    | some (.jstr s) => .jstr s
    | some t => jsOrV (getField t "message") (jsOrV (getField t "caption") (.jstr ""))
    | none => .jstr ""
  jsOrV (getField m "body") (jsOrV (some tpart) (jsOrV (getField m "caption") (.jstr "")))

/-- Media derivation (line 149): m.mediaUrl || m.imageUrl || m.documentUrl || null. -/
def mediaUrlOf (m : JsonVal) : JsonVal :=
  jsOrV (getField m "mediaUrl") (jsOrV (getField m "imageUrl")
    (jsOrV (getField m "documentUrl") .jnull))

/-- Preview text of the main webhook revision (line 152): the raw text
when truthy, else a bracketed kind tag when a media URL is present, else
the empty string — no truncation. -/
def previewTextP1 (ty text mediaUrl : JsonVal) : JsonVal :=
  if truthy text then text
  else if truthy mediaUrl then .jstr ("[" ++ jsToString ty ++ "]")
  else .jstr ""

/-- Message id of the main webhook revision (line 165):
m.id || String(Date.now()). -/
def deriveIdP1 (m : JsonVal) (now : Int) : JsonVal :=
  jsOrV (getField m "id") (.jstr (jsToString (.jnum now)))

/-- The two in-memory stores: Chats and Messages. -/
structure Store where
  chats : List (JsonVal × ChatRec)
  msgs : List (JsonVal × List Msg)
deriving Repr

/-- One iteration of the webhook loop of src/unnamed/part_001 (lines
105-171) over a single normalized candidate: classify, derive fields,
upsert the chat summary and push the message; now stands for the wall
clock Date.now(). -/
def processCandidate (now : Int) (st : Store) (m : JsonVal) : Store :=
  let rawType := rawTypeOf m
  if isNoise rawType then st
  else
    match chatIdOf m with
    | none => st
    | some chatId =>
        let phone := phoneOf m chatId
        let name := nameOf m phone
        let avatarUrl := avatarOf m
        let ts := tsOf now m
        let ty := canonTypeP1 rawType (getField m "messageType") (getField m "imageUrl")
        let text := textOf m
        let mediaUrl := mediaUrlOf m
        let pv := previewTextP1 ty text mediaUrl
        let preview : JsonVal := .jobj [("type", ty), ("text", pv)]
        let chats2 := alistSet st.chats chatId
          (upsertChat (alistGet st.chats chatId) chatId (some name) (some phone)
            (some ts) (some avatarUrl) (some preview))
        let mid := deriveIdP1 m now
        let msg : Msg := ⟨mid, truthyO (getField m "fromMe"), ty, text, mediaUrl, ts⟩
        ⟨chats2, pushMessage st.msgs chatId msg⟩

/-- Claim C5: a candidate whose declared type matches one of the noise
patterns (status callback, presence, typing, acknowledgement, read
receipt, delivery receipt — case-insensitive substrings) leaves both the
conversation store and the message log store untouched. -/
theorem noise_candidate_no_mutation (now : Int) (st : Store) (m : JsonVal)
    (h : isNoise (rawTypeOf m) = true) :
    (processCandidate now st m).chats = st.chats ∧
    (processCandidate now st m).msgs = st.msgs := by
  simp [processCandidate, h]

theorem noise_candidate_no_mutation_witness :
    (processCandidate 0 ⟨[], []⟩ (.jobj [("type", .jstr "MessageStatusCallback")])).chats
        = [] ∧
    (processCandidate 0 ⟨[], []⟩ (.jobj [("type", .jstr "MessageStatusCallback")])).msgs
        = [] :=
  noise_candidate_no_mutation 0 ⟨[], []⟩
    (.jobj [("type", .jstr "MessageStatusCallback")]) (by decide)

/-- A live Z-API received-message callback candidate: declared type
exactly "ReceivedCallback", with a phone field and a text object. -/
def rcCandidate : JsonVal :=
  .jobj [("type", .jstr "ReceivedCallback"), ("phone", .jstr "5511999"),
         ("text", .jobj [("message", .jstr "hi")])]

/-- Claim C4 (refuted by the code, a bug): the canonicalization branch
of the main webhook revision does map a raw type of exactly
"ReceivedCallback" to kind "chat", but that branch is unreachable — the
noise filter that runs first matches the case-insensitive pattern Ack
against the substring "ack" of "Callback" and discards the record, so a
ReceivedCallback candidate is dropped as noise and mutates no store. -/
theorem receivedCallback_discarded_bug :
    containsCI "ReceivedCallback" "Ack" = true ∧
    isNoise "ReceivedCallback" = true ∧
    canonTypeP1 "ReceivedCallback" none none = .jstr "chat" ∧
    (∀ now st, processCandidate now st rcCandidate = st) := by
  refine ⟨by decide, by decide, rfl, ?_⟩
  intro now st
  have h : isNoise (rawTypeOf rcCandidate) = true := by decide
  simp [processCandidate, h]

/-- previewText of the earlier webhook revisions (src/server.js lines
49-51 and src/unnamed/part_000 lines 142-143, textually the same
expression): kind "chat" truncates the text to 120 characters, any
other kind yields a bracketed kind tag, a space, and the text truncated
to 80 characters. -/
def previewTextTrunc (ty : JsonVal) (text : String) : JsonVal :=
  if beqJ ty (.jstr "chat") then .jstr (text.take 120)
  else .jstr ("[" ++ jsToString ty ++ "] " ++ text.take 80)

/-- Modelled from the spec's preview rule (the wording of claim C6):
kind "chat" truncates the message text to at most 120 characters; any
other kind is rendered as a bracketed kind, a space, and the text
truncated to at most 80 characters. -/
def specPreviewText (kind text : String) : String :=
  if kind = "chat" then text.take 120
  else "[" ++ kind ++ "] " ++ text.take 80

/-- A chat text of 121 identical characters. -/
def longText : String := String.mk (List.replicate 121 'a')

set_option maxRecDepth 4000 in
/-- Claim C6 counterexample: on the main webhook revision a chat-kind
message whose text has 121 characters is stored in the preview
untruncated, differing from the 120-character truncation the claim
prescribes. -/
theorem preview_truncation_counterexample :
    previewTextP1 (.jstr "chat") (.jstr longText) .jnull = .jstr longText ∧
    longText.length = 121 ∧
    (specPreviewText "chat" longText).length = 120 ∧
    previewTextP1 (.jstr "chat") (.jstr longText) .jnull
      ≠ .jstr (specPreviewText "chat" longText) := by
  have h1 : previewTextP1 (.jstr "chat") (.jstr longText) .jnull = .jstr longText := rfl
  have h2 : longText.length = 121 := by decide
  have h3 : (specPreviewText "chat" longText).length = 120 := by decide
  refine ⟨h1, h2, h3, ?_⟩
  rw [h1]
  intro h
  have h4 : longText = specPreviewText "chat" longText := by injection h
  rw [← h4, h2] at h3
  exact absurd h3 (by decide)

/-- Claim C6 amended: the truncation rule holds verbatim on the
src/server.js and src/unnamed/part_000 ingestion paths, whereas the main
webhook revision stores the full untruncated text whenever the text is
truthy, a bare bracketed kind tag when the text is falsy and a media URL
is present, and the empty string otherwise. -/
theorem preview_rule_amended :
    (∀ ty text, previewTextTrunc (.jstr ty) text = .jstr (specPreviewText ty text)) ∧
    (∀ ty text media, truthy text = true → previewTextP1 ty text media = text) ∧
    (∀ ty text media, truthy text = false → truthy media = true →
      previewTextP1 ty text media = .jstr ("[" ++ jsToString ty ++ "]")) ∧
    (∀ ty text media, truthy text = false → truthy media = false →
      previewTextP1 ty text media = .jstr "") := by
  refine ⟨?_, ?_, ?_, ?_⟩
  · intro ty text
    by_cases h : ty = "chat" <;> simp [previewTextTrunc, specPreviewText, beqJ, h, jsToString]
  · intro ty text media h
    simp [previewTextP1, h]
  · intro ty text media h1 h2
    simp [previewTextP1, h1, h2]
  · intro ty text media h1 h2
    simp [previewTextP1, h1, h2]

theorem preview_rule_amended_witness :
    previewTextTrunc (.jstr "image") "pic" = .jstr (specPreviewText "image" "pic") ∧
    previewTextP1 (.jstr "chat") (.jstr "hello") .jnull = .jstr "hello" ∧
    previewTextP1 (.jstr "image") (.jstr "") (.jstr "http://u") = .jstr "[image]" :=
  ⟨preview_rule_amended.1 "image" "pic",
   preview_rule_amended.2.1 (.jstr "chat") (.jstr "hello") .jnull (by decide),
   preview_rule_amended.2.2.1 (.jstr "image") (.jstr "") (.jstr "http://u")
     (by decide) (by decide)⟩

/-- Array.prototype.slice(start, stop) for 0 ≤ start ≤ stop: the
elements from index start up to stop, clamped to the array length. -/
def jsSlice {α : Type} (xs : List α) (start stop : Nat) : List α :=
  (xs.drop start).take (stop - start)

/-- GET /messages (src/unnamed/part_001 lines 207-215; identically in
src/server.js lines 274-282): look up the conversation's log (empty when
absent), slice [cursor, cursor+pageSize), and report the next cursor as
the decimal rendering of cursor+pageSize while more items remain, else
null (none).  The handler parses cursor and pageSize from query strings;
the claims quantify over their parsed integral values. -/
def getMessagesPage (msgs : List (JsonVal × List Msg)) (chatId : JsonVal)
    (cursor pageSize : Nat) : List Msg × Option String :=
  let all := (alistGet msgs chatId).getD []
  let start := cursor
  let stop := start + pageSize
  (jsSlice all start stop, if stop < all.length then some (toString stop) else none)

/-- Claim C7: the messages page holds exactly the log entries from index
cursor up to cursor+pageSize — elementwise, with length
min pageSize (log length - cursor) — and the next cursor is
cursor+pageSize rendered as a string when that is still below the log
length, else null; in particular, on a 120-entry log, page (0,50) has 50
items and next cursor "50", and page (100,50) has 20 items and a null
next cursor. -/
theorem messages_pagination (msgs : List (JsonVal × List Msg)) (chatId : JsonVal)
    (c p : Nat) :
    (∀ i, i < p → ((getMessagesPage msgs chatId c p).1)[i]?
      = ((alistGet msgs chatId).getD [])[c + i]?) ∧
    ((getMessagesPage msgs chatId c p).1).length
      = min p (((alistGet msgs chatId).getD []).length - c) ∧
    ((getMessagesPage msgs chatId c p).2
      = if c + p < ((alistGet msgs chatId).getD []).length
        then some (toString (c + p)) else none) ∧
    (((alistGet msgs chatId).getD []).length = 120 →
      ((getMessagesPage msgs chatId 0 50).1.length = 50 ∧
       (getMessagesPage msgs chatId 0 50).2 = some "50" ∧
       (getMessagesPage msgs chatId 100 50).1.length = 20 ∧
       (getMessagesPage msgs chatId 100 50).2 = none)) := by
  refine ⟨?_, ?_, rfl, ?_⟩
  · intro i hi
    simp only [getMessagesPage, jsSlice, Nat.add_sub_cancel_left]
    rw [List.getElem?_take_of_lt hi, List.getElem?_drop]
  · simp [getMessagesPage, jsSlice, Nat.add_sub_cancel_left, List.length_take,
      List.length_drop]
  · intro h120
    refine ⟨?_, ?_, ?_, ?_⟩
    · simp [getMessagesPage, jsSlice, List.length_take, List.length_drop, h120]
    · simp [getMessagesPage, h120]
      decide
    · simp [getMessagesPage, jsSlice, List.length_take, List.length_drop, h120]
    · simp [getMessagesPage, h120]

/-- A demonstration message for the pagination witness. -/
def demoMsg : Msg := ⟨.jstr "m", false, .jstr "chat", .jstr "hi", .jnull, 0⟩

/-- A message store holding one conversation with a 120-entry log. -/
def demoMsgStore : List (JsonVal × List Msg) :=
  [(.jstr "c", List.replicate 120 demoMsg)]

theorem messages_pagination_witness :
    (getMessagesPage demoMsgStore (.jstr "c") 0 50).1[0]?
        = ((alistGet demoMsgStore (.jstr "c")).getD [])[0]? ∧
    (getMessagesPage demoMsgStore (.jstr "c") 0 50).1.length = 50 ∧
    (getMessagesPage demoMsgStore (.jstr "c") 0 50).2 = some "50" ∧
    (getMessagesPage demoMsgStore (.jstr "c") 100 50).1.length = 20 ∧
    (getMessagesPage demoMsgStore (.jstr "c") 100 50).2 = none := by
  have h := messages_pagination demoMsgStore (.jstr "c") 0 50
  have h120 : ((alistGet demoMsgStore (.jstr "c")).getD []).length = 120 := by
    simp [demoMsgStore, alistGet, List.find?, beqJ]
  rcases h.2.2.2 h120 with ⟨a, b, c, d⟩
  exact ⟨h.1 0 (by decide), a, b, c, d⟩

/-- The GET /messages read as a store transformer: the route performs no
writes, so the store passes through unchanged alongside the payload. -/
def readMessages (st : Store) (chatId : JsonVal) (cursor pageSize : Nat) :
    Store × (List Msg × Option String) :=
  (st, getMessagesPage st.msgs chatId cursor pageSize)

/-- Claim C10: paging a conversation id with no stored log yields the
successful empty page — no items and a null next cursor — for any cursor
and page size, and the stores are unchanged by the read. -/
theorem messages_missing_conversation (st : Store) (chatId : JsonVal)
    (cursor pageSize : Nat) (h : alistGet st.msgs chatId = none) :
    readMessages st chatId cursor pageSize = (st, ([], none)) := by
  simp [readMessages, getMessagesPage, jsSlice, h]

theorem messages_missing_conversation_witness :
    readMessages ⟨[], []⟩ (.jstr "absent") 0 50 = (⟨[], []⟩, ([], none)) :=
  messages_missing_conversation ⟨[], []⟩ (.jstr "absent") 0 50 rfl

/-- Message id of the src/server.js webhook revision (lines 58-59):
m.id || m.key?.id || a template string of chatId and ts. -/
def deriveIdSrv (m : JsonVal) (chatId : JsonVal) (ts : Int) : JsonVal :=
  jsOrV (getField m "id") (jsOrV (getField (fieldD m "key") "id")
    (.jstr (jsToString chatId ++ "-" ++ jsToString (.jnum ts))))

/-- Message id of the src/unnamed/part_000 webhook revision (line 147):
m.id || m.messageId || m.key?.id || the same template string. -/
def deriveIdP000 (m : JsonVal) (chatId : JsonVal) (ts : Int) : JsonVal :=
  jsOrV (getField m "id") (jsOrV (getField m "messageId")
    (jsOrV (getField (fieldD m "key") "id")
      (.jstr (jsToString chatId ++ "-" ++ jsToString (.jnum ts)))))

/-- Modelled from the wording of claim C8: the explicit id when present,
else the nested key id, else the synthesized conversationId-timestamp
string. -/
def specMessageId (m : JsonVal) (chatId : JsonVal) (ts : Int) : JsonVal :=
  jsOrV (getField m "id") (jsOrV (getField (fieldD m "key") "id")
    (.jstr (jsToString chatId ++ "-" ++ jsToString (.jnum ts))))

/-- A candidate carrying a nested key id but no explicit id. -/
def keyedCandidate : JsonVal :=
  .jobj [("key", .jobj [("id", .jstr "K1")]), ("chatId", .jstr "5511@c.us"),
         ("body", .jstr "hi")]

/-- Claim C8 counterexample: on the main webhook revision, a candidate
carrying only a nested key id is stored under the wall-clock string
"1700", not under the key id "K1" that the claimed chain prescribes. -/
theorem message_id_counterexample :
    deriveIdP1 keyedCandidate 1700 = .jstr "1700" ∧
    specMessageId keyedCandidate (.jstr "5511@c.us") 1700 = .jstr "K1" ∧
    deriveIdP1 keyedCandidate 1700
      ≠ specMessageId keyedCandidate (.jstr "5511@c.us") 1700 := by
  refine ⟨rfl, rfl, fun h => ?_⟩
  rw [show deriveIdP1 keyedCandidate 1700 = .jstr "1700" from rfl,
    show specMessageId keyedCandidate (.jstr "5511@c.us") 1700 = .jstr "K1" from rfl] at h
  have h2 : ("1700" : String) = "K1" := by injection h
  exact absurd h2 (by decide)

/-- Claim C8 amended: the chain explicit id, then nested key id, then
synthesized "chatId-ts" holds verbatim on the src/server.js webhook
path, and on the src/unnamed/part_000 path whenever no messageId alias
is present (that path inserts m.messageId between the explicit id and
the key id); the main webhook revision instead stores the explicit id
when truthy and otherwise the wall clock rendered as a string,
consulting neither the key id nor the conversation id. -/
theorem message_id_amended :
    (∀ m chatId ts, deriveIdSrv m chatId ts = specMessageId m chatId ts) ∧
    (∀ m chatId ts, truthyO (getField m "messageId") = false →
      deriveIdP000 m chatId ts = specMessageId m chatId ts) ∧
    (∀ m now v, getField m "id" = some v → truthy v = true → deriveIdP1 m now = v) ∧
    (∀ m now, truthyO (getField m "id") = false →
      deriveIdP1 m now = .jstr (jsToString (.jnum now))) := by
  refine ⟨fun m c t => rfl, ?_, ?_, ?_⟩
  · intro m c t h
    unfold deriveIdP000 specMessageId
    rw [jsOrV_of_falsy _ _ h]
  · intro m now v hv ht
    simp [deriveIdP1, hv, jsOrV, ht]
  · intro m now h
    simp [deriveIdP1, jsOrV_of_falsy _ _ h]

theorem message_id_amended_witness :
    deriveIdP000 keyedCandidate (.jstr "5511@c.us") 1700
        = specMessageId keyedCandidate (.jstr "5511@c.us") 1700 ∧
    deriveIdP1 (.jobj [("id", .jstr "X9")]) 1700 = .jstr "X9" ∧
    deriveIdP1 keyedCandidate 1700 = .jstr (jsToString (.jnum 1700)) :=
  ⟨message_id_amended.2.1 keyedCandidate (.jstr "5511@c.us") 1700 rfl,
   message_id_amended.2.2.1 (.jobj [("id", .jstr "X9")]) 1700 (.jstr "X9") rfl (by decide),
   message_id_amended.2.2.2 keyedCandidate 1700 rfl⟩

/-- The value of data.chats || data.contacts || data.items: the first
truthy wrapper, else the raw items field (possibly absent or falsy). -/
def firstTruthyWrapper (d : JsonVal) : Option JsonVal :=
  if truthyO (getField d "chats") then getField d "chats"
  else if truthyO (getField d "contacts") then getField d "contacts"
  else getField d "items"

/-- One candidate step of fetchAllChats (src/unnamed/part_000 lines
233-235): a bare array is accepted; a null body throws on field access
and falls to the next candidate (none); otherwise the wrapper chain
defaulted to the empty array is accepted when it is an array, while a
truthy non-array wrapper falls through to the next candidate. -/
def extractChatArr (data : JsonVal) : Option (List JsonVal) :=
  match data with
  | .jarr xs => some xs
  | .jnull => none
  | d =>
      match firstTruthyWrapper d with
      | some (.jarr xs) => some xs
      | some w => if truthy w then none else some []
      | none => some []

/-- fetchAllChats (src/unnamed/part_000 lines 223-239) over the ordered
candidate endpoint responses (chats, client/chats, contacts, in that
fixed priority order): none models a fetch failure or non-success
status, some the parsed JSON body.  The first candidate accepted by
extractChatArr wins; exhaustion yields the empty list. -/
def fetchAllChats : List (Option JsonVal) → List JsonVal
  | [] => []
  | none :: rest => fetchAllChats rest
  | some d :: rest =>
      match extractChatArr d with
      | some arr => arr
      | none => fetchAllChats rest

/-- Modelled from the wording of claim C9: accept the first response
that is a sequence — a bare array, or an array wrapped under chats,
contacts or items — and degrade to the empty set when every candidate
fails or yields no sequence. -/
def yieldsSequence (d : JsonVal) : Option (List JsonVal) :=
  match d with
  | .jarr xs => some xs
  | _ =>
      match getField d "chats" with
      | some (.jarr xs) => some xs
      | _ =>
          match getField d "contacts" with
          | some (.jarr xs) => some xs
          | _ =>
              match getField d "items" with
              | some (.jarr xs) => some xs
              | _ => none

/-- Modelled from the wording of claim C9: the listing the claim
prescribes, over the same response model as fetchAllChats. -/
def specListChats : List (Option JsonVal) → List JsonVal
  | [] => []
  | none :: rest => specListChats rest
  | some d :: rest =>
      match yieldsSequence d with
      | some xs => xs
      | none => specListChats rest

/-- Claim C9 counterexample: when the first endpoint succeeds with a
plain object carrying no array under any wrapper and the second endpoint
returns a one-chat array, the code stops at the first endpoint with the
empty list — by the wrapper chain's || [] default — instead of moving on
and returning the second endpoint's sequence as the claim prescribes. -/
theorem backfill_listing_counterexample :
    fetchAllChats [some (.jobj [("ok", .jbool true)]), some (.jarr [.jstr "c1"])] = [] ∧
    specListChats [some (.jobj [("ok", .jbool true)]), some (.jarr [.jstr "c1"])]
      = [.jstr "c1"] ∧
    fetchAllChats [some (.jobj [("ok", .jbool true)]), some (.jarr [.jstr "c1"])]
      ≠ specListChats [some (.jobj [("ok", .jbool true)]), some (.jarr [.jstr "c1"])] :=
  ⟨rfl, rfl, fun h => List.noConfusion (h : ([] : List JsonVal) = [.jstr "c1"])⟩

/-- Claim C9 amended: the candidates are tried in their fixed priority
order and the first one accepted under the code's rule wins — a bare
array, the first truthy chats/contacts/items wrapper when it is an
array, or the empty array when a non-null body has no truthy wrapper;
fetch failures, null bodies and truthy non-array wrappers skip to the
next candidate, and exhaustion of every candidate degrades to the empty
conversation set instead of failing. -/
theorem backfill_listing_amended :
    (∀ rs : List (Option JsonVal), (∀ r ∈ rs, r.bind extractChatArr = none) →
      fetchAllChats rs = []) ∧
    (∀ pre rest (d : Option JsonVal) arr, (∀ r ∈ pre, r.bind extractChatArr = none) →
      d.bind extractChatArr = some arr →
      fetchAllChats (pre ++ d :: rest) = arr) := by
  constructor
  · intro rs h
    induction rs with
    | nil => rfl
    | cons r rest ih =>
        have hr := h r (List.mem_cons_self r rest)
        cases r with
        | none => exact ih (fun q hq => h q (List.mem_cons_of_mem _ hq))
        | some dv =>
            simp only [Option.bind] at hr
            simp only [fetchAllChats, hr]
            exact ih (fun q hq => h q (List.mem_cons_of_mem _ hq))
  · intro pre rest d arr hpre hd
    induction pre with
    | nil =>
        cases d with
        | none => exact absurd hd (by simp)
        | some dv =>
            simp only [Option.bind] at hd
            simp [fetchAllChats, hd]
    | cons q pre ih =>
        have hq := hpre q (List.mem_cons_self q pre)
        cases q with
        | none => exact ih (fun x hx => hpre x (List.mem_cons_of_mem _ hx))
        | some qv =>
            simp only [Option.bind] at hq
            simp only [List.cons_append, fetchAllChats, hq]
            exact ih (fun x hx => hpre x (List.mem_cons_of_mem _ hx))

theorem backfill_listing_amended_witness :
    fetchAllChats [some .jnull, some (.jarr [.jstr "c1"])] = [.jstr "c1"] ∧
    fetchAllChats [none, some .jnull] = [] := by
  constructor
  · have h := backfill_listing_amended.2 [some .jnull] [] (some (.jarr [.jstr "c1"]))
      [.jstr "c1"] (by intro r hr; simp at hr; subst hr; rfl) rfl
    simpa using h
  · exact backfill_listing_amended.1 [none, some .jnull]
      (by intro r hr; simp at hr; rcases hr with rfl | rfl <;> rfl)
